import Mathlib

/-!
Verification of the openscreen export pipeline against its specification.

Numbers are modelled as rationals; the JavaScript sources operate on IEEE
doubles, and every decimal literal of the source is carried over exactly.
Modules that the repository imports but whose source files are absent
(videoPlayback/constants, zoomRegionUtils, focusUtils, springPhysics) are
treated as parameters of the embedding: the theorems quantify over every
possible implementation of the missing functions, so they hold in
particular for the actual one.
-/

namespace OpenScreen

/-! ### Animation / camera driver (FrameRenderer.updateAnimationState) -/

/-- Smoothed camera transform state, as held in FrameRenderer.animationState. -/
structure AnimationState where
  scale : ℚ
  focusX : ℚ
  focusY : ℚ
  deriving Repr, DecidableEq

/-- Normalized focus point inside the cropped video area. -/
structure Focus where
  cx : ℚ
  cy : ℚ
  deriving Repr, DecidableEq

/-- Timeline zoom effect window, from the ZoomRegion interface. -/
structure ZoomRegion where
  id : String
  startMs : ℚ
  endMs : ℚ
  depth : ℕ
  focus : Focus
  deriving Repr, DecidableEq

/-- Parameters of the driver that live in modules absent from the sources:
ZOOM_DEPTH_SCALES, findDominantRegion, clampFocusToStage (closed over the
fixed layout cache of one export), SMOOTHING_FACTOR, MIN_DELTA and
DEFAULT_FOCUS.  All driver theorems quantify over this environment. -/
structure DriverEnv where
  zoomDepthScale : ℕ → ℚ
  findDominantRegion : List ZoomRegion → ℚ → Option ZoomRegion × ℚ
  clampFocusToStage : Focus → ℕ → Focus
  smoothingFactor : ℚ
  minDelta : ℚ
  defaultFocus : Focus

/-- Target computation of updateAnimationState: identity when no dominant
region is active, otherwise linear interpolation by the region strength. -/
def computeTarget (env : DriverEnv) (regions : List ZoomRegion) (timeMs : ℚ) :
    ℚ × Focus :=
  match env.findDominantRegion regions timeMs with
  | (some region, strength) =>
    if 0 < strength then
      let zoomScale := env.zoomDepthScale region.depth
      let regionFocus := env.clampFocusToStage region.focus region.depth
      let df := env.defaultFocus
      ⟨1 + (zoomScale - 1) * strength,
       ⟨df.cx + (regionFocus.cx - df.cx) * strength,
        df.cy + (regionFocus.cy - df.cy) * strength⟩⟩
    else ⟨1, env.defaultFocus⟩
  | (none, _) => ⟨1, env.defaultFocus⟩

/-- Per-component exponential smoothing with snap inside MIN_DELTA,
mirroring the three identical branches of updateAnimationState. -/
def smoothStep (sf md target current : ℚ) : ℚ :=
  if md < |target - current| then current + (target - current) * sf
  else target

/-- One smoothing tick of the whole camera state toward a fixed target. -/
def animTick (sf md : ℚ) (targetScale : ℚ) (targetFocus : Focus)
    (s : AnimationState) : AnimationState :=
  ⟨smoothStep sf md targetScale s.scale,
   smoothStep sf md targetFocus.cx s.focusX,
   smoothStep sf md targetFocus.cy s.focusY⟩

/-- Full per-tick state update of FrameRenderer.updateAnimationState:
compute the target from the region list and the requested time, then
smooth each component toward it. -/
def updateAnimationState (env : DriverEnv) (regions : List ZoomRegion)
    (timeMs : ℚ) (s : AnimationState) : AnimationState :=
  let t := computeTarget env regions timeMs
  animTick env.smoothingFactor env.minDelta t.1 t.2 s

/-- Initial camera state of a fresh FrameRenderer, which the spec fixes to
scale 1 and focus (0.5, 0.5). -/
def initialAnimationState : AnimationState := ⟨1, 1/2, 1/2⟩

/-- One render tick as scheduled by the environment.  A tick carries the
requested media timestamp together with the wall-clock instant at which the
runtime happened to fire it; the state update reads only the former. -/
def pacedTick (env : DriverEnv) (regions : List ZoomRegion)
    (s : AnimationState) (tick : ℚ × ℚ) : AnimationState :=
  updateAnimationState env regions tick.1 s

/-- Sequence of camera states produced by running the driver over a
schedule of (requested timestamp, wall-clock time) ticks. -/
def driverRun (env : DriverEnv) (regions : List ZoomRegion)
    (s : AnimationState) : List (ℚ × ℚ) → List AnimationState
  | [] => []
  | t :: ts =>
    let s' := pacedTick env regions s t
    s' :: driverRun env regions s' ts

theorem driverRun_pacing_irrelevant (env : DriverEnv)
    (regions : List ZoomRegion) (s : AnimationState) :
    ∀ ticks₁ ticks₂ : List (ℚ × ℚ),
      ticks₁.map Prod.fst = ticks₂.map Prod.fst →
      driverRun env regions s ticks₁ = driverRun env regions s ticks₂ := by
  intro ticks₁
  induction ticks₁ generalizing s with
  | nil =>
    intro ticks₂ h
    cases ticks₂ with
    | nil => rfl
    | cons t ts => simp at h
  | cons t ts ih =>
    intro ticks₂ h
    cases ticks₂ with
    | nil => simp at h
    | cons u us =>
      simp only [List.map_cons, List.cons.injEq] at h
      obtain ⟨hfst, hrest⟩ := h
      simp only [driverRun, pacedTick, hfst]
      exact congrArg _ (ih _ us hrest)

/-- C1: the animation driver is deterministic.  Two runs from the initial
state over tick schedules that request the same timestamps produce
identical state sequences, whatever the wall-clock pacing of either run:
the per-tick update reads only the prior state, the region list and the
requested timestamp. -/
theorem animation_driver_deterministic (env : DriverEnv)
    (regions : List ZoomRegion) (ticks₁ ticks₂ : List (ℚ × ℚ))
    (h : ticks₁.map Prod.fst = ticks₂.map Prod.fst) :
    driverRun env regions initialAnimationState ticks₁ =
      driverRun env regions initialAnimationState ticks₂ := by
  exact driverRun_pacing_irrelevant env regions initialAnimationState ticks₁ ticks₂ h

/-- Trivial driver environment used to instantiate theorems about the
parametric embedding on concrete inputs. -/
def sampleDriverEnv : DriverEnv where
  zoomDepthScale := fun _ => 2
  findDominantRegion := fun _ _ => (none, 0)
  clampFocusToStage := fun f _ => f
  smoothingFactor := 1/2
  minDelta := 1/1000
  defaultFocus := ⟨1/2, 1/2⟩

/-- Witness for C1: two one-tick runs requesting timestamp 0 under
different wall-clock pacings coincide. -/
theorem animation_driver_deterministic_witness :
    ([((0 : ℚ), (7 : ℚ))].map Prod.fst = [((0 : ℚ), (99 : ℚ))].map Prod.fst) ∧
      driverRun sampleDriverEnv [] initialAnimationState [((0 : ℚ), (7 : ℚ))] =
        driverRun sampleDriverEnv [] initialAnimationState [((0 : ℚ), (99 : ℚ))] :=
  ⟨by simp, animation_driver_deterministic sampleDriverEnv [] _ _ (by simp)⟩

/-! ### Convergence of the smoothing tick (C3) -/

theorem smoothStep_fixed (sf md t : ℚ) (hmd : 0 < md) :
    smoothStep sf md t t = t := by
  simp [smoothStep, hmd.not_lt]

theorem smoothStep_snap (sf md t c : ℚ) (h : |t - c| ≤ md) :
    smoothStep sf md t c = t := by
  simp [smoothStep, h.not_lt]

theorem smoothStep_contract (sf md t c : ℚ) (hsf1 : sf < 1) :
    |t - smoothStep sf md t c| ≤ |t - c| * (1 - sf) := by
  unfold smoothStep
  split
  · have : t - (c + (t - c) * sf) = (t - c) * (1 - sf) := by ring
    rw [this, abs_mul, abs_of_nonneg (by linarith : (0 : ℚ) ≤ 1 - sf)]
  · simpa using mul_nonneg (abs_nonneg (t - c)) (by linarith : (0 : ℚ) ≤ 1 - sf)

theorem smoothStep_iterate_bound (sf md t c : ℚ) (hsf1 : sf < 1) :
    ∀ n : ℕ, |t - (smoothStep sf md t)^[n] c| ≤ |t - c| * (1 - sf) ^ n := by
  intro n
  induction n with
  | zero => simp
  | succ n ih =>
    rw [Function.iterate_succ_apply']
    calc |t - smoothStep sf md t ((smoothStep sf md t)^[n] c)|
        ≤ |t - (smoothStep sf md t)^[n] c| * (1 - sf) :=
          smoothStep_contract sf md t _ hsf1
      _ ≤ |t - c| * (1 - sf) ^ n * (1 - sf) := by
          have h1 : (0 : ℚ) ≤ 1 - sf := by linarith
          exact mul_le_mul_of_nonneg_right ih h1
      _ = |t - c| * (1 - sf) ^ (n + 1) := by ring

theorem smoothStep_converges (sf md t c : ℚ) (hsf0 : 0 < sf) (hsf1 : sf < 1)
    (hmd : 0 < md) :
    ∃ N : ℕ, ∀ n : ℕ, N ≤ n → (smoothStep sf md t)^[n] c = t := by
  have hpos : (0 : ℚ) < md / (|t - c| + 1) := by
    have h1 : (0 : ℚ) < |t - c| + 1 := by
      have := abs_nonneg (t - c); linarith
    exact div_pos hmd h1
  obtain ⟨n₀, hn₀⟩ := exists_pow_lt_of_lt_one hpos (by linarith : 1 - sf < 1)
  have habs : (0 : ℚ) ≤ |t - c| := abs_nonneg _
  have hlt : |t - (smoothStep sf md t)^[n₀] c| ≤ md := by
    have h1 := smoothStep_iterate_bound sf md t c hsf1 n₀
    have h2 : |t - c| * (1 - sf) ^ n₀ ≤ (|t - c| + 1) * (md / (|t - c| + 1)) := by
      have hp : (0 : ℚ) ≤ (1 - sf) ^ n₀ := pow_nonneg (by linarith) n₀
      calc |t - c| * (1 - sf) ^ n₀
          ≤ (|t - c| + 1) * (1 - sf) ^ n₀ := by nlinarith
        _ ≤ (|t - c| + 1) * (md / (|t - c| + 1)) := by
            have h3 : (0 : ℚ) ≤ |t - c| + 1 := by linarith
            exact mul_le_mul_of_nonneg_left hn₀.le h3
    have h4 : (|t - c| + 1) * (md / (|t - c| + 1)) = md := by
      field_simp
    linarith [h1, h2, h4.le]
  refine ⟨n₀ + 1, ?_⟩
  intro n hn
  obtain ⟨k, rfl⟩ := Nat.exists_eq_add_of_le hn
  rw [Nat.add_comm (n₀ + 1) k, Function.iterate_add_apply]
  have hfix : (smoothStep sf md t)^[n₀ + 1] c = t := by
    rw [Function.iterate_succ_apply']
    exact smoothStep_snap sf md t _ hlt
  rw [hfix]
  exact Function.iterate_fixed (smoothStep_fixed sf md t hmd) k

theorem animTick_iterate (sf md tS : ℚ) (tF : Focus) (s : AnimationState) :
    ∀ n : ℕ, (animTick sf md tS tF)^[n] s =
      ⟨(smoothStep sf md tS)^[n] s.scale,
       (smoothStep sf md tF.cx)^[n] s.focusX,
       (smoothStep sf md tF.cy)^[n] s.focusY⟩ := by
  intro n
  induction n with
  | zero => simp
  | succ n ih =>
    rw [Function.iterate_succ_apply', ih, Function.iterate_succ_apply',
      Function.iterate_succ_apply', Function.iterate_succ_apply']
    rfl

/-- C3: with a constant target, zero less than SMOOTHING_FACTOR less than
one, and positive MIN_DELTA, iterating the per-tick update reaches a state
exactly equal to the target after finitely many ticks and stays there with
no residual oscillation. -/
theorem animation_converges_to_target (sf md tS : ℚ) (tF : Focus)
    (s : AnimationState) (hsf0 : 0 < sf) (hsf1 : sf < 1) (hmd : 0 < md) :
    ∃ N : ℕ, ∀ n : ℕ, N ≤ n →
      (animTick sf md tS tF)^[n] s = ⟨tS, tF.cx, tF.cy⟩ := by
  obtain ⟨N₁, h₁⟩ := smoothStep_converges sf md tS s.scale hsf0 hsf1 hmd
  obtain ⟨N₂, h₂⟩ := smoothStep_converges sf md tF.cx s.focusX hsf0 hsf1 hmd
  obtain ⟨N₃, h₃⟩ := smoothStep_converges sf md tF.cy s.focusY hsf0 hsf1 hmd
  refine ⟨max (max N₁ N₂) N₃, ?_⟩
  intro n hn
  rw [animTick_iterate]
  have hn₁ : N₁ ≤ n := le_trans (le_trans (le_max_left _ _) (le_max_left _ _)) hn
  have hn₂ : N₂ ≤ n := le_trans (le_trans (le_max_right _ _) (le_max_left _ _)) hn
  have hn₃ : N₃ ≤ n := le_trans (le_max_right _ _) hn
  rw [h₁ n hn₁, h₂ n hn₂, h₃ n hn₃]

/-- Witness for C3 at smoothing factor one half, MIN_DELTA one thousandth,
target scale 2 with focus (0.3, 0.3), from the initial camera state. -/
theorem animation_converges_to_target_witness :
    (0 : ℚ) < 1/2 ∧ (1/2 : ℚ) < 1 ∧ (0 : ℚ) < 1/1000 ∧
      ∃ N : ℕ, ∀ n : ℕ, N ≤ n →
        (animTick (1/2) (1/1000) 2 ⟨3/10, 3/10⟩)^[n] initialAnimationState =
          ⟨2, 3/10, 3/10⟩ :=
  ⟨by norm_num, by norm_num, by norm_num,
    animation_converges_to_target (1/2) (1/1000) 2 ⟨3/10, 3/10⟩
      initialAnimationState (by norm_num) (by norm_num) (by norm_num)⟩

/-! ### Export loop of VideoExporter.export (C4, C9) -/

/-- Frame handed to the encoder: timestamp and duration in microseconds
plus the keyframe flag passed alongside the encode call. -/
structure SubmittedFrame where
  timestamp : ℚ
  duration : ℚ
  keyFrame : Bool
  deriving Repr, DecidableEq

/-- Payload of one onProgress callback invocation. -/
structure ProgressReport where
  currentFrame : ℕ
  totalFrames : ℕ
  percentage : ℚ
  deriving Repr, DecidableEq

/-- Inputs and per-iteration observations of the extraction loop.
frameOk models whether creating the VideoFrame at index i throws,
encoderConfigured the encoder.state check before encode, and cancelledAt
the cancellation flag observed at the top of iteration i. -/
structure ExportEnv where
  frameRate : ℕ
  duration : ℚ
  frameOk : ℕ → Bool
  encoderConfigured : ℕ → Bool
  cancelledAt : ℕ → Bool

/-- Total output frame count: Math.ceil of duration times frame rate. -/
def ExportEnv.totalFrames (env : ExportEnv) : ℕ :=
  (⌈env.duration * (env.frameRate : ℚ)⌉).toNat

/-- Fixed per-frame duration in microseconds. -/
def ExportEnv.frameDuration (env : ExportEnv) : ℚ :=
  1000000 / (env.frameRate : ℚ)

/-- Frame submitted for index i: timestamp i times frameDuration, fixed
duration, keyframe when i is a multiple of the frame rate. -/
def ExportEnv.mkFrame (env : ExportEnv) (i : ℕ) : SubmittedFrame :=
  ⟨(i : ℚ) * env.frameDuration, env.frameDuration,
    decide (i % env.frameRate = 0)⟩

/-- Progress payload reported after finishing the frame at index i. -/
def ExportEnv.mkProgress (env : ExportEnv) (i : ℕ) : ProgressReport :=
  ⟨i + 1, env.totalFrames,
    (((i : ℚ) + 1) / (env.totalFrames : ℚ)) * 100⟩

/-- The extraction loop from iteration i with r iterations of budget left,
returning the frames submitted to the encoder and the progress reports
emitted.  A failed frame extraction advances the index without submitting
or reporting; an observed cancellation exits the loop. -/
def exportLoop (env : ExportEnv) : ℕ → ℕ → List SubmittedFrame × List ProgressReport
  | _, 0 => ([], [])
  | i, r + 1 =>
    if env.cancelledAt i then ([], [])
    else if env.frameOk i then
      let rest := exportLoop env (i + 1) r
      (if env.encoderConfigured i then env.mkFrame i :: rest.1 else rest.1,
       env.mkProgress i :: rest.2)
    else exportLoop env (i + 1) r

/-- One full export run of the loop. -/
def exportRun (env : ExportEnv) : List SubmittedFrame × List ProgressReport :=
  exportLoop env 0 env.totalFrames

theorem exportLoop_clean (env : ExportEnv)
    (hok : ∀ i, env.frameOk i = true)
    (henc : ∀ i, env.encoderConfigured i = true)
    (hnc : ∀ i, env.cancelledAt i = false) :
    ∀ r i, exportLoop env i r =
      ((List.range r).map fun k => env.mkFrame (i + k),
       (List.range r).map fun k => env.mkProgress (i + k)) := by
  intro r
  induction r with
  | zero => intro i; simp [exportLoop]
  | succ r ih =>
    intro i
    rw [List.range_succ_eq_map]
    simp only [exportLoop, hok, henc, hnc, if_true, if_false, Bool.false_eq_true,
      List.map_cons, List.map_map, ih (i + 1)]
    congr 1
    · simp only [Nat.add_zero, List.cons.injEq, true_and]
      apply List.map_congr_left
      intro k _
      simp only [Function.comp_apply]
      congr 1
      omega
    · simp only [Nat.add_zero, List.cons.injEq, true_and]
      apply List.map_congr_left
      intro k _
      simp only [Function.comp_apply]
      congr 1
      omega

/-- C4: when every frame extraction succeeds, the encoder stays configured
and no cancellation occurs, the loop submits exactly ceil of duration times
frameRate frames; frame i carries timestamp i times 1e6 over frameRate,
fixed duration 1e6 over frameRate, and the keyframe flag exactly when i is
a multiple of the frame rate. -/
theorem export_submits_all_frames (env : ExportEnv)
    (hd : 0 ≤ env.duration)
    (hok : ∀ i, env.frameOk i = true)
    (henc : ∀ i, env.encoderConfigured i = true)
    (hnc : ∀ i, env.cancelledAt i = false) :
    ((exportRun env).1.length : ℤ) = ⌈env.duration * (env.frameRate : ℚ)⌉ ∧
      (exportRun env).1 = (List.range env.totalFrames).map fun i =>
        ⟨(i : ℚ) * (1000000 / (env.frameRate : ℚ)),
         1000000 / (env.frameRate : ℚ),
         decide (i % env.frameRate = 0)⟩ := by
  have h := exportLoop_clean env hok henc hnc env.totalFrames 0
  have hrun : (exportRun env).1 =
      (List.range env.totalFrames).map fun k => env.mkFrame k := by
    rw [exportRun, h]
    simp
  constructor
  · rw [hrun, List.length_map, List.length_range, ExportEnv.totalFrames]
    exact Int.toNat_of_nonneg (Int.ceil_nonneg (by positivity))
  · rw [hrun]
    rfl

/-- C9: across every pair of successive progress callbacks of any export
run, whatever frames fail or when cancellation strikes, currentFrame and
percentage are non-decreasing and totalFrames is constant. -/
theorem export_progress_monotone (env : ExportEnv) :
    List.Chain'
      (fun p q => p.currentFrame ≤ q.currentFrame ∧
        p.percentage ≤ q.percentage ∧ p.totalFrames = q.totalFrames)
      (exportRun env).2 := by
  have key : ∀ r i, List.Chain'
      (fun p q => p.currentFrame ≤ q.currentFrame ∧
        p.percentage ≤ q.percentage ∧ p.totalFrames = q.totalFrames)
      (exportLoop env i r).2 ∧
      ∀ p ∈ (exportLoop env i r).2,
        i + 1 ≤ p.currentFrame ∧ p.totalFrames = env.totalFrames ∧
          p.percentage = ((p.currentFrame : ℚ) / (env.totalFrames : ℚ)) * 100 := by
    intro r
    induction r with
    | zero => intro i; simp [exportLoop]
    | succ r ih =>
      intro i
      by_cases hc : env.cancelledAt i
      · simp [exportLoop, hc]
      by_cases hf : env.frameOk i
      · obtain ⟨ihChain, ihBound⟩ := ih (i + 1)
        simp only [exportLoop, hc, hf, if_true, if_false, Bool.false_eq_true]
        constructor
        · refine List.chain'_cons'.2 ⟨?_, ihChain⟩
          intro q hq
          have hqb := ihBound q (List.mem_of_mem_head? hq)
          have hcf : i + 1 ≤ q.currentFrame := by omega
          refine ⟨hcf, ?_, by
            simpa [ExportEnv.mkProgress] using hqb.2.1.symm⟩
          rw [hqb.2.2]
          simp only [ExportEnv.mkProgress]
          have h100 : (0 : ℚ) ≤ 100 := by norm_num
          have hT : (0 : ℚ) ≤ (env.totalFrames : ℚ) := Nat.cast_nonneg _
          rcases eq_or_lt_of_le hT with hT0 | hT0
          · rw [← hT0]
            simp
          · have hle : ((i : ℚ) + 1) ≤ (q.currentFrame : ℚ) := by
              have h' : ((i + 1 : ℕ) : ℚ) ≤ ((q.currentFrame : ℕ) : ℚ) :=
                Nat.cast_le.2 hcf
              push_cast at h'
              linarith
            exact mul_le_mul_of_nonneg_right
              ((div_le_div_iff_of_pos_right hT0).2 hle) h100
        · intro p hp
          rcases List.mem_cons.1 hp with hp | hp
          · subst hp
            simp [ExportEnv.mkProgress]
          · have := ihBound p hp
            exact ⟨by omega, this.2.1, this.2.2⟩
      · obtain ⟨c, b⟩ := ih (i + 1)
        have hstep : exportLoop env i (r + 1) = exportLoop env (i + 1) r := by
          simp [exportLoop, hc, hf]
        rw [hstep]
        exact ⟨c, fun p hp => ⟨by have := (b p hp).1; omega, (b p hp).2⟩⟩
  exact (key env.totalFrames 0).1

/-- Concrete export environment: 5 second source at 30 fps, every frame
extracted, encoder configured, never cancelled. -/
def sampleExportEnv : ExportEnv where
  frameRate := 30
  duration := 5
  frameOk := fun _ => true
  encoderConfigured := fun _ => true
  cancelledAt := fun _ => false

/-- Witness for C4 on the sample environment. -/
theorem export_submits_all_frames_witness :
    ((exportRun sampleExportEnv).1.length : ℤ) =
      ⌈sampleExportEnv.duration * (sampleExportEnv.frameRate : ℚ)⌉ ∧
      (exportRun sampleExportEnv).1 =
        (List.range sampleExportEnv.totalFrames).map fun i =>
          ⟨(i : ℚ) * (1000000 / (sampleExportEnv.frameRate : ℚ)),
           1000000 / (sampleExportEnv.frameRate : ℚ),
           decide (i % sampleExportEnv.frameRate = 0)⟩ :=
  export_submits_all_frames sampleExportEnv
    (by norm_num [sampleExportEnv]) (fun _ => rfl) (fun _ => rfl) (fun _ => rfl)

/-! ### Export result and cancellation (C2) -/

/-- Result value returned by VideoExporter.export. -/
structure ExportResult where
  success : Bool
  error : Option String
  deriving Repr, DecidableEq

/-- Why the cancellation flag was raised: the public cancel() call or the
asynchronous error callback of the VideoEncoder. -/
inductive CancelCause
  | userCancel
  | encoderError
  deriving Repr, DecidableEq

/-- An interruption raising the flag before loop iteration atIteration. -/
structure Interruption where
  cause : CancelCause
  atIteration : ℕ
  deriving Repr, DecidableEq

/-- Both cancel() and the encoder error callback set this.cancelled. -/
def setsCancelledFlag : CancelCause → Bool
  | .userCancel => true
  | .encoderError => true

/-- Result of an export run: when the cancellation flag was raised before
the loop finished, the loop exits and export returns success false with
the fixed message; otherwise the run finalizes successfully. -/
def exportResult (env : ExportEnv) (intr : Option Interruption) : ExportResult :=
  match intr with
  | some it =>
    if setsCancelledFlag it.cause && decide (it.atIteration < env.totalFrames) then
      ⟨false, some "Export cancelled"⟩
    else ⟨true, none⟩
  | none => ⟨true, none⟩

/-- Counterexample to C2: an asynchronous encoder error produces a result
identical to the user-cancelled result, not a distinguishable one. -/
theorem encoder_error_equals_cancel_result :
    exportResult sampleExportEnv (some ⟨CancelCause.encoderError, 0⟩) =
      exportResult sampleExportEnv (some ⟨CancelCause.userCancel, 0⟩) := by
  rfl

/-- C2 amended: any interruption during the loop, whether the cancel()
call or the asynchronous encoder error (which merely raises the same
cancellation flag), makes export return success false with the fixed
marker Export cancelled, distinct from the successful result; the encoder
error is not distinguishable from a user cancellation. -/
theorem export_cancelled_result (env : ExportEnv) (it : Interruption)
    (h : it.atIteration < env.totalFrames) :
    exportResult env (some it) = ⟨false, some "Export cancelled"⟩ ∧
      exportResult env (some it) ≠ exportResult env none := by
  have hc : setsCancelledFlag it.cause = true := by
    cases it.cause <;> rfl
  constructor
  · simp [exportResult, hc, h]
  · simp [exportResult, hc, h]

theorem sampleExportEnv_totalFrames : sampleExportEnv.totalFrames = 150 := by
  norm_num [sampleExportEnv, ExportEnv.totalFrames]
  rfl

/-- Witness for C2 amended at a user cancellation before frame 0 of the
sample export. -/
theorem export_cancelled_result_witness :
    (0 < sampleExportEnv.totalFrames) ∧
      exportResult sampleExportEnv (some ⟨CancelCause.userCancel, 0⟩) =
        ⟨false, some "Export cancelled"⟩ :=
  ⟨by rw [sampleExportEnv_totalFrames]; norm_num,
    (export_cancelled_result sampleExportEnv ⟨CancelCause.userCancel, 0⟩
      (by rw [sampleExportEnv_totalFrames]; norm_num)).1⟩

/-! ### Seeking of the export pipeline (C7) -/

/-- Clamped seek target of the seekToTime helper: only an upper clamp at
duration minus one millisecond is applied. -/
def seekClampedTime (time duration : ℚ) : ℚ :=
  min time (duration - 1/1000)

/-- The seekToTime helper, returning the currentTime after the call and
whether a real seek was issued: when currentTime is already within a
millisecond of the clamped target it resolves without touching it. -/
def seekToTime (time duration currentTime : ℚ) : ℚ × Bool :=
  let clampedTime := seekClampedTime time duration
  if |currentTime - clampedTime| < 1/1000 then (currentTime, false)
  else (clampedTime, true)

/-- Counterexample to C7: for the requested seek time minus one second on
a 5 second video, the effective target is minus one second, outside the
interval claimed; no lower clamp to zero exists in the code. -/
theorem seek_no_lower_clamp : ¬ (0 : ℚ) ≤ seekClampedTime (-1) 5 := by
  norm_num [seekClampedTime]

/-- C7 amended: the effective target is clamped only from above, at
duration minus 0.001 s; for the nonnegative request times the export loop
issues it therefore lies in the interval from 0 to duration minus 0.001.
When the current time is already within 0.001 s of the clamped target the
seek resolves immediately without changing the current time. -/
theorem seek_clamps_and_idempotent (time duration currentTime : ℚ)
    (ht : 0 ≤ time) (hd : 1/1000 ≤ duration) :
    (0 ≤ seekClampedTime time duration ∧
      seekClampedTime time duration ≤ duration - 1/1000) ∧
      (|currentTime - seekClampedTime time duration| < 1/1000 →
        seekToTime time duration currentTime = (currentTime, false)) := by
  refine ⟨⟨le_min ht (by linarith), min_le_right _ _⟩, ?_⟩
  intro h
  simp only [seekToTime]
  exact if_pos h

/-- Witness for C7 amended: seeking to 1 s on a 5 s video with the
decoder already at 1 s is a no-op. -/
theorem seek_clamps_and_idempotent_witness :
    seekToTime 1 5 1 = ((1 : ℚ), false) :=
  (seek_clamps_and_idempotent 1 5 1 (by norm_num) (by norm_num)).2 (by
    norm_num [seekClampedTime, min_def])

/-! ### Spring cursor interpolator (C6) -/

/-- Physically simulated 2D cursor state of the spring interpolator. -/
structure Spring2DState where
  x : ℚ
  y : ℚ
  vx : ℚ
  vy : ℚ
  deriving Repr, DecidableEq

/-- Mutable fields of SpringCursorInterpolator relevant to update. -/
structure SpringInterpState where
  state : Spring2DState
  lastTime : ℚ
  initialized : Bool
  deriving Repr, DecidableEq

/-- SpringCursorInterpolator.update.  The spring integrator spring2DStep
lives in the absent springPhysics module, so the update is parametric in
the integration step function (state, targetX, targetY, dt). -/
def springUpdate (step : Spring2DState → ℚ → ℚ → ℚ → Spring2DState)
    (st : SpringInterpState) (targetX targetY currentTimeMs : ℚ) :
    SpringInterpState :=
  if st.initialized = false then
    ⟨⟨targetX, targetY, 0, 0⟩, currentTimeMs, true⟩
  else
    let timeDiff := currentTimeMs - st.lastTime
    if timeDiff < -100 ∨ 500 < timeDiff then
      ⟨⟨targetX, targetY, 0, 0⟩, currentTimeMs, true⟩
    else
      let dt := min (timeDiff / 1000) (1/20)
      if 0 < dt then ⟨step st.state targetX targetY dt, currentTimeMs, true⟩
      else ⟨st.state, currentTimeMs, true⟩

/-- C6: after initialization, a timestamp jump of more than 500 ms forward
or more than 100 ms backward resets the velocity to exactly zero and snaps
the position exactly to the new target on that update; otherwise the
spring state either stays put (non-positive elapsed time) or advances by a
single integration step whose dt is capped at 50 ms. -/
theorem spring_reset_on_discontinuity
    (step : Spring2DState → ℚ → ℚ → ℚ → Spring2DState)
    (st : SpringInterpState) (tx ty t : ℚ)
    (hinit : st.initialized = true) :
    ((t - st.lastTime < -100 ∨ 500 < t - st.lastTime) →
      springUpdate step st tx ty t = ⟨⟨tx, ty, 0, 0⟩, t, true⟩) ∧
      (¬(t - st.lastTime < -100 ∨ 500 < t - st.lastTime) →
        (springUpdate step st tx ty t).state = st.state ∨
          ∃ dt : ℚ, 0 < dt ∧ dt ≤ 1/20 ∧
            (springUpdate step st tx ty t).state = step st.state tx ty dt) := by
  have hni : ¬ st.initialized = false := by simp [hinit]
  constructor
  · intro hjump
    simp only [springUpdate, if_neg hni]
    exact if_pos hjump
  · intro hjump
    simp only [springUpdate, if_neg hni, if_neg hjump]
    by_cases hdt : 0 < min ((t - st.lastTime) / 1000) (1/20 : ℚ)
    · exact Or.inr ⟨min ((t - st.lastTime) / 1000) (1/20), hdt,
        min_le_right _ _, by rw [if_pos hdt]⟩
    · exact Or.inl (by rw [if_neg hdt])

/-- Witness for C6: a forward jump of 1000 ms from an initialized state
snaps to the target (5, 6) with zero velocity. -/
theorem spring_reset_on_discontinuity_witness :
    (SpringInterpState.mk ⟨0, 0, 0, 0⟩ 0 true).initialized = true ∧
      springUpdate (fun s _ _ _ => s) ⟨⟨0, 0, 0, 0⟩, 0, true⟩ 5 6 1000 =
        ⟨⟨5, 6, 0, 0⟩, 1000, true⟩ :=
  ⟨rfl,
    (spring_reset_on_discontinuity (fun s _ _ _ => s) ⟨⟨0, 0, 0, 0⟩, 0, true⟩
      5 6 1000 rfl).1 (by norm_num)⟩

/-! ### Squircle mask path (C8) -/

/-- Path segments emitted onto the pixi Graphics object. -/
inductive PathSeg
  | moveTo (x y : ℚ)
  | lineTo (x y : ℚ)
  | bezierCurveTo (c1x c1y c2x c2y x y : ℚ)
  | closePath
  deriving Repr, DecidableEq

/-- Per-corner enable flags. -/
structure CornerFlags where
  tl : Bool
  tr : Bool
  bl : Bool
  br : Bool
  deriving Repr, DecidableEq

/-- drawSquirclePath, recorded as the list of emitted path segments. -/
def drawSquirclePath (x y width height radius : ℚ) (corners : CornerFlags) :
    List PathSeg :=
  let maxRadius := min width height / 2
  let r := min radius maxRadius
  let smoothness : ℚ := 128/100
  let p := smoothness * r * (1/2)
  let c := r * (5522847498/10000000000)
  let tl := if corners.tl then r else 0
  let tr := if corners.tr then r else 0
  let bl := if corners.bl then r else 0
  let br := if corners.br then r else 0
  let tlP := if corners.tl then p else 0
  let trP := if corners.tr then p else 0
  let blP := if corners.bl then p else 0
  let brP := if corners.br then p else 0
  [PathSeg.moveTo (x + tl + tlP) y,
   PathSeg.lineTo (x + width - tr - trP) y] ++
  (if 0 < tr then
    [PathSeg.bezierCurveTo (x + width - tr + c) y (x + width) (y + tr - c)
      (x + width) (y + tr + trP)]
   else [PathSeg.lineTo (x + width) y]) ++
  [PathSeg.lineTo (x + width) (y + height - br - brP)] ++
  (if 0 < br then
    [PathSeg.bezierCurveTo (x + width) (y + height - br + c)
      (x + width - br + c) (y + height) (x + width - br - brP) (y + height)]
   else [PathSeg.lineTo (x + width) (y + height)]) ++
  [PathSeg.lineTo (x + bl + blP) (y + height)] ++
  (if 0 < bl then
    [PathSeg.bezierCurveTo (x + bl - c) (y + height) x (y + height - bl + c)
      x (y + height - bl - blP)]
   else [PathSeg.lineTo x (y + height)]) ++
  [PathSeg.lineTo x (y + tl + tlP)] ++
  (if 0 < tl then
    [PathSeg.bezierCurveTo x (y + tl - c) (x + tl - c) y (x + tl + tlP) y]
   else [PathSeg.lineTo x y]) ++
  [PathSeg.closePath]

/-- Whether a segment is a bezier curve. -/
def PathSeg.isBezier : PathSeg → Bool
  | .bezierCurveTo _ _ _ _ _ _ => true
  | _ => false

/-- Vertices carried by a segment: the endpoint of a move or line, the
control points and endpoint of a bezier. -/
def PathSeg.points : PathSeg → List (ℚ × ℚ)
  | .moveTo a b => [(a, b)]
  | .lineTo a b => [(a, b)]
  | .bezierCurveTo c1x c1y c2x c2y a b => [(c1x, c1y), (c2x, c2y), (a, b)]
  | .closePath => []

/-- Membership in the boundary of the axis-aligned rectangle with origin
(x, y), width w and height h. -/
def onRectBoundary (x y w h px py : ℚ) : Prop :=
  ((px = x ∨ px = x + w) ∧ y ≤ py ∧ py ≤ y + h) ∨
    ((py = y ∨ py = y + h) ∧ x ≤ px ∧ px ≤ x + w)

theorem rect_corners_onBoundary (x y w h : ℚ) (hw : 0 ≤ w) (hh : 0 ≤ h) :
    onRectBoundary x y w h x y ∧ onRectBoundary x y w h (x + w) y ∧
      onRectBoundary x y w h (x + w) (y + h) ∧
      onRectBoundary x y w h x (y + h) :=
  ⟨Or.inl ⟨Or.inl rfl, le_refl _, by linarith⟩,
   Or.inl ⟨Or.inr rfl, le_refl _, by linarith⟩,
   Or.inl ⟨Or.inr rfl, by linarith, le_refl _⟩,
   Or.inl ⟨Or.inl rfl, by linarith, le_refl _⟩⟩

/-- C8: with all four corner flags disabled, for every rectangle with
nonnegative dimensions and every radius, the squircle mask path consists
exactly of the rectangle outline (moveTo, lineTo and closePath segments
only, with duplicated miter vertices), no bezier segment is emitted, and
every emitted vertex lies on the boundary of the rectangle. -/
theorem squircle_disabled_corners_is_rectangle
    (x y w h radius : ℚ) (hw : 0 ≤ w) (hh : 0 ≤ h) :
    drawSquirclePath x y w h radius ⟨false, false, false, false⟩ =
      [PathSeg.moveTo x y, PathSeg.lineTo (x + w) y, PathSeg.lineTo (x + w) y,
       PathSeg.lineTo (x + w) (y + h), PathSeg.lineTo (x + w) (y + h),
       PathSeg.lineTo x (y + h), PathSeg.lineTo x (y + h),
       PathSeg.lineTo x y, PathSeg.lineTo x y, PathSeg.closePath] ∧
      (∀ s ∈ drawSquirclePath x y w h radius ⟨false, false, false, false⟩,
        s.isBezier = false) ∧
      (∀ s ∈ drawSquirclePath x y w h radius ⟨false, false, false, false⟩,
        ∀ pt ∈ s.points, onRectBoundary x y w h pt.1 pt.2) := by
  have hlist : drawSquirclePath x y w h radius ⟨false, false, false, false⟩ =
      [PathSeg.moveTo x y, PathSeg.lineTo (x + w) y, PathSeg.lineTo (x + w) y,
       PathSeg.lineTo (x + w) (y + h), PathSeg.lineTo (x + w) (y + h),
       PathSeg.lineTo x (y + h), PathSeg.lineTo x (y + h),
       PathSeg.lineTo x y, PathSeg.lineTo x y, PathSeg.closePath] := by
    simp [drawSquirclePath]
  obtain ⟨hc1, hc2, hc3, hc4⟩ := rect_corners_onBoundary x y w h hw hh
  refine ⟨hlist, ?_, ?_⟩
  · intro s hs
    rw [hlist] at hs
    simp only [List.mem_cons, List.not_mem_nil, or_false] at hs
    rcases hs with rfl|rfl|rfl|rfl|rfl|rfl|rfl|rfl|rfl|rfl <;> rfl
  · intro s hs pt hpt
    rw [hlist] at hs
    simp only [List.mem_cons, List.not_mem_nil, or_false] at hs
    rcases hs with rfl|rfl|rfl|rfl|rfl|rfl|rfl|rfl|rfl|rfl <;>
      simp only [PathSeg.points, List.mem_singleton, List.not_mem_nil] at hpt
    all_goals first
      | exact absurd hpt (by simp)
      | (subst hpt; first | exact hc1 | exact hc2 | exact hc3 | exact hc4)

/-- Witness for C8 on the rectangle at (0,0) of size 10 by 5, radius 3. -/
theorem squircle_disabled_corners_is_rectangle_witness :
    (0 : ℚ) ≤ 10 ∧ (0 : ℚ) ≤ 5 ∧
      ∀ s ∈ drawSquirclePath 0 0 10 5 3 ⟨false, false, false, false⟩,
        s.isBezier = false :=
  ⟨by norm_num, by norm_num,
    (squircle_disabled_corners_is_rectangle 0 0 10 5 3
      (by norm_num) (by norm_num)).2.1⟩

/-! ### Frame rate resolution of VideoFileDecoder (C5) -/

/-- Sidecar recording metadata (.meta.json). -/
structure RecordingMetadata where
  fps : ℚ
  resolution : String
  quality : String
  width : ℚ
  height : ℚ
  duration : ℚ
  timestamp : ℚ
  deriving Repr, DecidableEq

/-- tryLoadMetadata: the fps of a present, parsed sidecar file when it is
strictly positive. -/
def tryLoadMetadata (sidecar : Option RecordingMetadata) : Option ℚ :=
  match sidecar with
  | none => none
  | some md => if 0 < md.fps then some md.fps else none

/-- guessFrameRateFromDuration: the duration heuristic. -/
def guessFrameRateFromDuration (duration : ℚ) : ℚ :=
  if duration < 5 then 60
  else if 120 < duration then 30
  else 60

/-- Median inter-frame delta: middle element of the ascending sort. -/
def medianFrameTime (frameTimes : List ℚ) : ℚ :=
  let sorted := List.insertionSort (· ≤ ·) frameTimes
  sorted.getD (sorted.length / 2) 0

/-- Math.round of the reciprocal median, as an exact rational. -/
def roundedFps (frameTimes : List ℚ) : ℚ :=
  ((round (1 / medianFrameTime frameTimes) : ℤ) : ℚ)

/-- The common frame rates the empirical fps is mapped onto. -/
def commonFpsRates : List ℚ := [24, 25, 30, 48, 50, 60, 120]

/-- One step of the reduce picking whichever rate is closer to fps. -/
def pickCloser (fps prev curr : ℚ) : ℚ :=
  if |curr - fps| < |prev - fps| then curr else prev

/-- The reduce over the common rates, seeded with the first entry. -/
def closestCommonFps (fps : ℚ) : ℚ :=
  match commonFpsRates with
  | [] => fps
  | c₀ :: rest => List.foldl (pickCloser fps) c₀ rest

/-- Decision structure of measureFrameRate.  timedOut models the 2 second
setTimeout firing before 30 frame callbacks arrived; frameTimes are the
positive inter-frame deltas collected. -/
def measureFrameRateResult (rvfcAvailable timedOut : Bool)
    (frameTimes : List ℚ) (duration : ℚ) : ℚ :=
  if rvfcAvailable = false then guessFrameRateFromDuration duration
  else if timedOut then
    if 2 < frameTimes.length then roundedFps frameTimes
    else guessFrameRateFromDuration duration
  else
    if 5 < frameTimes.length then closestCommonFps (roundedFps frameTimes)
    else guessFrameRateFromDuration duration

/-- Frame rate resolution of loadVideo: sidecar fps when positive,
otherwise empirical detection, with a hard 60 fps default when the
detection promise throws. -/
def resolveFrameRate (sidecar : Option RecordingMetadata)
    (detectionThrew rvfcAvailable timedOut : Bool)
    (frameTimes : List ℚ) (duration : ℚ) : ℚ :=
  match tryLoadMetadata sidecar with
  | some f =>
    if 0 < f then f
    else if detectionThrew then 60
    else measureFrameRateResult rvfcAvailable timedOut frameTimes duration
  | none =>
    if detectionThrew then 60
    else measureFrameRateResult rvfcAvailable timedOut frameTimes duration

theorem foldl_pickCloser_mem (fps : ℚ) :
    ∀ (l : List ℚ) (acc : ℚ),
      List.foldl (pickCloser fps) acc l = acc ∨
        List.foldl (pickCloser fps) acc l ∈ l := by
  intro l
  induction l with
  | nil => intro acc; exact Or.inl rfl
  | cons a l ih =>
    intro acc
    simp only [List.foldl_cons]
    rcases ih (pickCloser fps acc a) with h | h
    · rw [h]
      unfold pickCloser
      split
      · exact Or.inr (List.mem_cons_self _ _)
      · exact Or.inl rfl
    · exact Or.inr (List.mem_cons_of_mem _ h)

theorem pickCloser_le_left (fps acc a : ℚ) :
    |pickCloser fps acc a - fps| ≤ |acc - fps| := by
  unfold pickCloser
  split
  · linarith
  · exact le_refl _

theorem pickCloser_le_right (fps acc a : ℚ) :
    |pickCloser fps acc a - fps| ≤ |a - fps| := by
  unfold pickCloser
  split
  · exact le_refl _
  · linarith [not_lt.1 (by assumption : ¬ |a - fps| < |acc - fps|)]

theorem foldl_pickCloser_min (fps : ℚ) :
    ∀ (l : List ℚ) (acc : ℚ),
      |List.foldl (pickCloser fps) acc l - fps| ≤ |acc - fps| ∧
        ∀ cf ∈ l, |List.foldl (pickCloser fps) acc l - fps| ≤ |cf - fps| := by
  intro l
  induction l with
  | nil => intro acc; exact ⟨le_refl _, by simp⟩
  | cons a l ih =>
    intro acc
    simp only [List.foldl_cons]
    obtain ⟨h1, h2⟩ := ih (pickCloser fps acc a)
    refine ⟨h1.trans (pickCloser_le_left fps acc a), ?_⟩
    intro cf hcf
    rcases List.mem_cons.1 hcf with rfl | hcf
    · exact h1.trans (pickCloser_le_right fps acc cf)
    · exact h2 cf hcf

/-- The reduce really picks a member of the common rates at minimal
distance from the measured fps. -/
theorem closestCommonFps_spec (fps : ℚ) :
    closestCommonFps fps ∈ commonFpsRates ∧
      ∀ cf ∈ commonFpsRates, |closestCommonFps fps - fps| ≤ |cf - fps| := by
  have heq : closestCommonFps fps =
      List.foldl (pickCloser fps) 24 [25, 30, 48, 50, 60, 120] := rfl
  have hmem := foldl_pickCloser_mem fps [25, 30, 48, 50, 60, 120] 24
  have hmin := foldl_pickCloser_min fps [25, 30, 48, 50, 60, 120] 24
  constructor
  · rw [heq]
    rcases hmem with h | h
    · rw [h]; simp [commonFpsRates]
    · simp only [commonFpsRates, List.mem_cons]
      rcases List.mem_cons.1 (List.mem_cons_of_mem (24 : ℚ) h) with h' | h'
      · exact Or.inl h'
      · simpa using Or.inr (by simpa using h')
  · intro cf hcf
    rw [heq]
    simp only [commonFpsRates, List.mem_cons] at hcf
    rcases hcf with rfl | hcf
    · exact hmin.1
    · exact hmin.2 cf (by simpa using hcf)

/-- Counterexample to C5: when the sampling timeout fires with only three
collected inter-frame deltas of one 45th of a second each, the decoder
resolves 45 fps from the raw median reciprocal, neither the duration
heuristic the claim requires for fewer than six samples nor a value mapped
to the common rates. -/
theorem framerate_timeout_breaks_sample_minimum :
    resolveFrameRate none false true true [1/45, 1/45, 1/45] 10 = 45 ∧
      guessFrameRateFromDuration 10 = 60 ∧
      resolveFrameRate none false true true [1/45, 1/45, 1/45] 10 ≠
        guessFrameRateFromDuration 10 := by
  have hmed : medianFrameTime [1/45, 1/45, 1/45] = 1/45 := by
    norm_num [medianFrameTime, List.insertionSort, List.orderedInsert]
  have hfps : roundedFps [1/45, 1/45, 1/45] = 45 := by
    rw [roundedFps, hmed]
    norm_num
  refine ⟨?_, by norm_num [guessFrameRateFromDuration], ?_⟩
  · simp only [resolveFrameRate, tryLoadMetadata, measureFrameRateResult]
    norm_num [hfps]
  · simp only [resolveFrameRate, tryLoadMetadata, measureFrameRateResult]
    norm_num [hfps, guessFrameRateFromDuration]

/-- C5 amended: the resolution priority is (1) sidecar fps when present
and strictly positive; (2) empirical detection when frame callbacks are
available: with at least 6 inter-frame samples and no timeout, the median
reciprocal rounded and mapped to the nearest of the common rates 24, 25,
30, 48, 50, 60, 120; but when the 2 s sampling timeout fires, already 3
samples suffice and the rounded median reciprocal is used unmapped; (3)
otherwise the duration heuristic (under 5 s gives 60, over 120 s gives 30,
else 60); (4) a hard 60 fps default when detection fails entirely. -/
theorem framerate_resolution_priority (md : RecordingMetadata)
    (threw rvfc timedOut : Bool) (times : List ℚ) (d : ℚ) :
    (0 < md.fps →
      resolveFrameRate (some md) threw rvfc timedOut times d = md.fps) ∧
      (md.fps ≤ 0 →
        resolveFrameRate (some md) threw rvfc timedOut times d =
          resolveFrameRate none threw rvfc timedOut times d) ∧
      (resolveFrameRate none true rvfc timedOut times d = 60) ∧
      (resolveFrameRate none false false timedOut times d =
        guessFrameRateFromDuration d) ∧
      (5 < times.length →
        resolveFrameRate none false true false times d =
          closestCommonFps (roundedFps times) ∧
          closestCommonFps (roundedFps times) ∈ commonFpsRates ∧
          ∀ cf ∈ commonFpsRates,
            |closestCommonFps (roundedFps times) - roundedFps times| ≤
              |cf - roundedFps times|) ∧
      (times.length ≤ 5 →
        resolveFrameRate none false true false times d =
          guessFrameRateFromDuration d) ∧
      (2 < times.length →
        resolveFrameRate none false true true times d = roundedFps times) ∧
      (times.length ≤ 2 →
        resolveFrameRate none false true true times d =
          guessFrameRateFromDuration d) ∧
      (d < 5 → guessFrameRateFromDuration d = 60) ∧
      (120 < d → guessFrameRateFromDuration d = 30) ∧
      (5 ≤ d → d ≤ 120 → guessFrameRateFromDuration d = 60) := by
  refine ⟨?_, ?_, ?_, ?_, ?_, ?_, ?_, ?_, ?_, ?_, ?_⟩
  · intro h
    simp [resolveFrameRate, tryLoadMetadata, h]
  · intro h
    simp [resolveFrameRate, tryLoadMetadata, not_lt.2 h]
  · simp [resolveFrameRate, tryLoadMetadata]
  · simp [resolveFrameRate, tryLoadMetadata, measureFrameRateResult]
  · intro h
    refine ⟨?_, closestCommonFps_spec (roundedFps times)⟩
    simp [resolveFrameRate, tryLoadMetadata, measureFrameRateResult, h]
  · intro h
    simp [resolveFrameRate, tryLoadMetadata, measureFrameRateResult,
      not_lt.2 h]
  · intro h
    simp [resolveFrameRate, tryLoadMetadata, measureFrameRateResult, h]
  · intro h
    simp [resolveFrameRate, tryLoadMetadata, measureFrameRateResult,
      not_lt.2 h]
  · intro h
    simp [guessFrameRateFromDuration, h]
  · intro h
    simp [guessFrameRateFromDuration, not_lt.2 (by linarith : (5:ℚ) ≤ d), h]
  · intro h5 h120
    simp [guessFrameRateFromDuration, not_lt.2 h5, not_lt.2 h120]

/-- Witness for C5 amended: six samples of one 30th of a second resolve,
without timeout, to the common rate mapping of 30 fps. -/
theorem framerate_resolution_priority_witness :
    5 < ([1/30, 1/30, 1/30, 1/30, 1/30, 1/30] : List ℚ).length ∧
      resolveFrameRate none false true false
          [1/30, 1/30, 1/30, 1/30, 1/30, 1/30] 10 =
        closestCommonFps (roundedFps [1/30, 1/30, 1/30, 1/30, 1/30, 1/30]) :=
  ⟨by norm_num,
    ((framerate_resolution_priority
      ⟨0, "", "", 0, 0, 0, 0⟩ false true false
      [1/30, 1/30, 1/30, 1/30, 1/30, 1/30] 10).2.2.2.2.1 (by norm_num)).1⟩

/-! ### Cursor position interpolation (C10) -/

/-- One recorded cursor sample. -/
structure CursorPosition where
  x : ℚ
  y : ℚ
  timestamp : ℚ
  pressed : Bool
  clickStart : Bool
  clickEnd : Bool
  deriving Repr, DecidableEq

/-- Recorded cursor track with the recording screen dimensions. -/
structure CursorData where
  positions : List CursorPosition
  screenWidth : ℚ
  screenHeight : ℚ
  recordedFps : Option ℚ
  deriving Repr, DecidableEq

/-- Placeholder sample for out-of-range indexing; the source never indexes
out of range, so it is never returned. -/
def dfltCursorPosition : CursorPosition := ⟨0, 0, 0, false, false, false⟩

/-- Final value of the search loop of interpolateCursorPosition: i starts
at 0 and increments while the next sample exists and its timestamp is
below the query time, so it ends at the number of consecutive successors
from index 1 whose timestamp is below the query time. -/
def cursorFindIndex (positions : List CursorPosition) (timeMs : ℚ) : ℕ :=
  ((positions.drop 1).takeWhile (fun p => p.timestamp < timeMs)).length

/-- interpolateCursorPosition: Catmull-Rom interpolation through the four
samples around the query time, with the result clamped to the screen
bounds; degenerate cases return stored samples directly. -/
def interpolateCursorPosition (data : CursorData) (timeMs : ℚ) :
    Option CursorPosition :=
  let positions := data.positions
  if positions.length = 0 then none
  else if positions.length = 1 then some (positions.getD 0 dfltCursorPosition)
  else
    let n := positions.length
    let i := cursorFindIndex positions timeMs
    if n - 1 ≤ i then some (positions.getD (n - 1) dfltCursorPosition)
    else
      let p0 := positions.getD (i - 1) dfltCursorPosition
      let p1 := positions.getD i dfltCursorPosition
      let p2 := positions.getD (min (n - 1) (i + 1)) dfltCursorPosition
      let p3 := positions.getD (min (n - 1) (i + 2)) dfltCursorPosition
      let denom := if p2.timestamp - p1.timestamp = 0 then 1
        else p2.timestamp - p1.timestamp
      let t := (timeMs - p1.timestamp) / denom
      let t2 := t * t
      let t3 := t2 * t
      let xv := (1/2) * ((2 * p1.x) + (-p0.x + p2.x) * t +
        (2 * p0.x - 5 * p1.x + 4 * p2.x - p3.x) * t2 +
        (-p0.x + 3 * p1.x - 3 * p2.x + p3.x) * t3)
      let yv := (1/2) * ((2 * p1.y) + (-p0.y + p2.y) * t +
        (2 * p0.y - 5 * p1.y + 4 * p2.y - p3.y) * t2 +
        (-p0.y + 3 * p1.y - 3 * p2.y + p3.y) * t3)
      let pressed := if t < 1/2 then p1.pressed else p2.pressed
      let clickStart := p1.clickStart || (decide ((1:ℚ)/2 ≤ t) && p2.clickStart)
      let clickEnd := p1.clickEnd || (decide ((1:ℚ)/2 ≤ t) && p2.clickEnd)
      some ⟨max 0 (min data.screenWidth xv), max 0 (min data.screenHeight yv),
        timeMs, pressed, clickStart, clickEnd⟩

/-- Counterexample to C10: with two samples whose last stored coordinate
lies outside the recorded screen (x 200 on a width 100 screen), a query
past the last sample returns that sample unclamped, violating the claimed
bound x at most screenWidth. -/
theorem cursor_pastend_escapes_bounds :
    interpolateCursorPosition
        ⟨[⟨0, 0, 0, false, false, false⟩, ⟨200, 0, 10, false, false, false⟩],
         100, 100, none⟩ 20 =
      some ⟨200, 0, 10, false, false, false⟩ ∧
      ¬ ((200 : ℚ) ≤ (100 : ℚ)) := by
  constructor
  · rfl
  · norm_num

/-- C10 amended: interpolateCursorPosition is total; it returns null
exactly when the position list is empty; a single sample is returned
unchanged; with at least two samples, a query for which the search runs
past the last sample returns the stored last sample unchanged (its
coordinates are not clamped), and otherwise the returned coordinates are
clamped into 0 to screenWidth and 0 to screenHeight (screen dimensions
nonnegative) with the query time as timestamp, even when the Catmull-Rom
spline overshoots. -/
theorem cursor_interpolation_total_and_clamped (data : CursorData)
    (timeMs : ℚ) :
    (interpolateCursorPosition data timeMs = none ↔ data.positions = []) ∧
      (∀ p, data.positions = [p] →
        interpolateCursorPosition data timeMs = some p) ∧
      (2 ≤ data.positions.length →
        (data.positions.length - 1 ≤ cursorFindIndex data.positions timeMs →
          interpolateCursorPosition data timeMs =
            some (data.positions.getD (data.positions.length - 1)
              dfltCursorPosition)) ∧
        (cursorFindIndex data.positions timeMs < data.positions.length - 1 →
          0 ≤ data.screenWidth → 0 ≤ data.screenHeight →
          ∃ r, interpolateCursorPosition data timeMs = some r ∧
            0 ≤ r.x ∧ r.x ≤ data.screenWidth ∧
            0 ≤ r.y ∧ r.y ≤ data.screenHeight ∧ r.timestamp = timeMs)) := by
  refine ⟨?_, ?_, ?_⟩
  · constructor
    · intro h
      by_contra hne
      have hlen : ¬ data.positions.length = 0 := by
        simpa [List.length_eq_zero] using hne
      simp only [interpolateCursorPosition] at h
      rw [if_neg hlen] at h
      by_cases h1 : data.positions.length = 1
      · rw [if_pos h1] at h
        exact Option.noConfusion h
      · rw [if_neg h1] at h
        split at h
        · exact Option.noConfusion h
        · exact Option.noConfusion h
    · intro h
      simp [interpolateCursorPosition, h]
  · intro p hp
    simp [interpolateCursorPosition, hp]
  · intro h2
    have h0 : ¬ data.positions.length = 0 := by omega
    have h1 : ¬ data.positions.length = 1 := by omega
    constructor
    · intro hge
      simp only [interpolateCursorPosition]
      rw [if_neg h0, if_neg h1, if_pos hge]
    · intro hlt hW hH
      simp only [interpolateCursorPosition]
      rw [if_neg h0, if_neg h1, if_neg (not_le.2 hlt)]
      refine ⟨_, rfl, ?_, ?_, ?_, ?_, rfl⟩
      · exact le_max_left 0 _
      · exact max_le hW (min_le_left _ _)
      · exact le_max_left 0 _
      · exact max_le hH (min_le_left _ _)

/-- Witness for C10 amended: a query at 5 ms between two in-bounds samples
returns a clamped in-bounds position. -/
theorem cursor_interpolation_total_and_clamped_witness :
    (2 ≤ ([⟨0, 0, 0, false, false, false⟩,
      ⟨50, 40, 10, false, false, false⟩] : List CursorPosition).length) ∧
      ∃ r, interpolateCursorPosition
          ⟨[⟨0, 0, 0, false, false, false⟩, ⟨50, 40, 10, false, false, false⟩],
           100, 100, none⟩ 5 = some r ∧
        0 ≤ r.x ∧ r.x ≤ (100 : ℚ) ∧ 0 ≤ r.y ∧ r.y ≤ (100 : ℚ) ∧
          r.timestamp = 5 :=
  ⟨by norm_num,
    ((cursor_interpolation_total_and_clamped
        ⟨[⟨0, 0, 0, false, false, false⟩, ⟨50, 40, 10, false, false, false⟩],
         100, 100, none⟩ 5).2.2 (by norm_num)).2
      (by decide) (by norm_num) (by norm_num)⟩

end OpenScreen
